import Mathlib

/-!
Verification of the client-side API access layer of the signup/admin/blog
frontend (`frontend/src/api.ts`) against its natural-language specification.

The TypeScript source is shallowly embedded: JSON runtime values become an
inductive `Json` type, JavaScript string/array/object operations used by the
source (truthiness, `String(...)` conversion, property and index access,
`trim`, `replace(/\/$/, "")`, `startsWith`, `includes`) become executable
Lean functions, and an HTTP response is a record carrying the status code,
the declared content type, the body as text and the body as parsed JSON
(`none` when `res.json()` would reject).  `jsonFetch` and the exported
operations become functions from such a response to an outcome: success with
a body, a thrown error carrying a message and optional attached data, or a
propagated JSON-parse failure.
-/

namespace SignupApi

/-! ## JavaScript string primitives -/

/-- Model of JavaScript `String.prototype.trim` (for the ASCII whitespace
the repository's configuration values use): drop whitespace from both ends. -/
def jsTrim (s : String) : String :=
  String.mk (((s.data.dropWhile Char.isWhitespace).reverse.dropWhile Char.isWhitespace).reverse)

/-- Contiguous-sublist test on character lists. -/
def listContainsSeq (pat : List Char) : List Char → Bool
  | [] => pat.isEmpty
  | c :: rest => pat.isPrefixOf (c :: rest) || listContainsSeq pat rest

/-- Model of JavaScript `String.prototype.includes` (substring test), used by
the source as `(res.headers.get("content-type") || "").includes("application/json")`. -/
def strIncludes (s pat : String) : Bool :=
  listContainsSeq pat.data s.data

/-- Model of JavaScript `String.prototype.startsWith`. -/
def jsStartsWith (s pre : String) : Bool :=
  pre.data.isPrefixOf s.data

/-- Model of `trimmed.replace(/\/$/, "")`: remove the final character when it
is a slash (the regex matches one trailing slash). -/
def jsStripTrailingSlash (s : String) : String :=
  if s.data.getLast? = some '/' then String.mk s.data.dropLast else s

/-! ## JSON runtime values -/

/-- A JavaScript value as produced by `JSON.parse` (numbers are modelled as
integers; every numeric value appearing in this layer's contract is one). -/
inductive Json where
  | str (s : String)
  | num (n : Int)
  | bool (b : Bool)
  | null
  | arr (elems : List Json)
  | obj (fields : List (String × Json))

/-- JavaScript truthiness of a defined value. -/
def jsTruthy : Json → Bool
  | .str s => s != ""
  | .num n => n != 0
  | .bool b => b
  | .null => false
  | .arr _ => true
  | .obj _ => true

/-- Truthiness of a possibly-undefined value (`none` models `undefined`). -/
def optTruthy : Option Json → Bool
  | none => false
  | some j => jsTruthy j

/-- First binding of a key in an object's field list (JavaScript objects have
unique keys; the source only builds such objects). -/
def lookupField : List (String × Json) → String → Option Json
  | [], _ => none
  | kv :: rest, k => if kv.1 = k then some kv.2 else lookupField rest k

/-- Property access `v?.k`: a field of an object, `undefined` on everything
else (strings, numbers, booleans, arrays and `null` have no such property,
or short-circuit under optional chaining). -/
def getField : Json → String → Option Json
  | .obj fields, k => lookupField fields k
  | _, _ => none

/-- Index access `v?.[i]`: an array element, a one-character string of a
string, the string-keyed field of an object, `undefined` otherwise. -/
def jsIndex : Json → Nat → Option Json
  | .arr l, i => l.get? i
  | .str s, i => (s.data.get? i).map (fun c => Json.str (String.mk [c]))
  | .obj fields, i => lookupField fields (toString i)
  | _, _ => none

mutual

/-- Model of JavaScript `String(v)` on JSON-parsed values. -/
def jsToString : Json → String
  | .str s => s
  | .num n => toString n
  | .bool b => if b then "true" else "false"
  | .null => "null"
  | .arr l => String.intercalate "," (jsArrayParts l)
  | .obj _ => "[object Object]"

/-- Element strings of `Array.prototype.toString`: `null` elements render as
the empty string, every other element via `String(...)`. -/
def jsArrayParts : List Json → List String
  | [] => []
  | .null :: rest => "" :: jsArrayParts rest
  | j :: rest => jsToString j :: jsArrayParts rest

end

/-- `String(...)` of a possibly-undefined value when it is truthy, `none`
otherwise: the shape of the source's `x ? String(x) : fallback` tests. -/
def truthyStr (o : Option Json) : Option String :=
  match o with
  | some j => if jsTruthy j then some (jsToString j) else none
  | none => none

/-! ## The response model and `jsonFetch` -/

/-- An HTTP response as `jsonFetch` observes it: the status code, the declared
content type (`""` when the header is absent), the body read as text, and the
body read as JSON (`none` models a rejecting `res.json()`). -/
structure HttpResponse where
  status : Nat
  contentType : String
  bodyText : String
  jsonBody : Option Json

/-- `res.ok`: status in the inclusive range 200–299. -/
def statusOk (status : Nat) : Bool :=
  decide (200 ≤ status ∧ status < 300)

/-- Outcome of one request: the parsed body on success, a thrown `Error` with
its message and optional attached `data` field, or a propagated failure of
`res.json()` on an unparseable JSON-declared body. -/
inductive FetchOutcome where
  | success (body : Json)
  | thrown (message : String) (data : Option Json)
  | jsonParseError

/-- The chain `body?.details?.[0]?.message` from the source. -/
def detailFirstMessage (body : Json) : Option Json :=
  ((getField body "details").bind (fun d => jsIndex d 0)).bind (fun e => getField e "message")

/-- The validation-error test of `jsonFetch`:
`body?.error === "validation_error" && Array.isArray(body?.details)`. -/
def isValidationBody (body : Json) : Bool :=
  (match getField body "error" with
   | some (Json.str s) => s == "validation_error"
   | _ => false) &&
  (match getField body "details" with
   | some (Json.arr _) => true
   | _ => false)

/-- The generic error message of `jsonFetch`:
`typeof body === "string" ? body : body?.details?.[0]?.message ?
String(body.details[0].message) : body?.error ? String(body.error) :
`HTTP ${res.status}``. -/
def genericMessage (status : Nat) (body : Json) : String :=
  match body with
  | .str s => s
  | _ =>
      match truthyStr (detailFirstMessage body) with
      | some m => m
      | none =>
          match truthyStr (getField body "error") with
          | some e => e
          | none => "HTTP " ++ toString status

/-- The non-success branch of `jsonFetch`: a validation-shaped JSON body
throws the first detail message (falling back to "Validation error") with the
body attached as `err.data`; everything else throws the generic message with
no attached data. -/
def classifyError (isJson : Bool) (status : Nat) (body : Json) : FetchOutcome :=
  if isJson && isValidationBody body then
    .thrown ((truthyStr (detailFirstMessage body)).getD "Validation error") (some body)
  else
    .thrown (genericMessage status body) none

/-- The response handling of `jsonFetch` (`frontend/src/api.ts`, lines
94–118): read the body as JSON when the content type declares JSON and as
text otherwise, return it on a 2xx status, and classify the error otherwise. -/
def jsonFetch (res : HttpResponse) : FetchOutcome :=
  let isJson := strIncludes res.contentType "application/json"
  if isJson then
    match res.jsonBody with
    | none => .jsonParseError
    | some body =>
        if statusOk res.status then .success body
        else classifyError true res.status body
  else
    if statusOk res.status then .success (.str res.bodyText)
    else classifyError false res.status (.str res.bodyText)

example : jsonFetch ⟨404, "text/plain", "Not found", none⟩ = .thrown "Not found" none := rfl
example : jsonFetch ⟨409, "application/json", "", some (.obj [("error", .str "Conflict")])⟩
    = .thrown "Conflict" none := rfl
example : jsonFetch ⟨400, "application/json", "",
      some (.obj [("error", .str "validation_error"),
        ("details", .arr [.obj [("field", .str "mobileNumber"), ("message", .str "Invalid")]])])⟩
    = .thrown "Invalid" (some (.obj [("error", .str "validation_error"),
        ("details", .arr [.obj [("field", .str "mobileNumber"), ("message", .str "Invalid")]])]))
    := rfl
example : jsonFetch ⟨200, "application/json", "", some (.obj [])⟩ = .success (.obj []) := rfl
example : jsonFetch ⟨500, "", "", none⟩ = .thrown "" none := rfl

/-! ## Base-URL resolution and URL construction -/

/-- `normalizeApiBase` (`api.ts`, lines 3–8): `none` on a missing value and on
a whitespace-only value, otherwise the trimmed value with one trailing slash
removed.  The `Option String` argument models `raw?: string | null`. -/
def normalizeApiBase (raw : Option String) : Option String :=
  match raw with
  | none => none
  | some s =>
      let trimmed := jsTrim s
      if trimmed = "" then none
      else some (jsStripTrailingSlash trimmed)

/-- `API_BASE` (`api.ts`, line 13) with the environment made explicit: the
resolved app mode and the two raw override values
(`VITE_ADMIN_API_BASE`, `VITE_API_BASE`). -/
def resolveApiBase (appMode : String) (adminRaw publicRaw : Option String) : String :=
  match (if appMode == "admin" then normalizeApiBase adminRaw else normalizeApiBase publicRaw) with
  | some b => b
  | none => ""

/-- `buildApiUrl` (`api.ts`, lines 15–18) with `API_BASE` made an explicit
argument: prefix the path with a slash when it has none, then prepend the
base when the base is a truthy (non-empty) string. -/
def buildApiUrl (apiBase : String) (path : String) : String :=
  let normalized := if jsStartsWith path "/" then path else "/" ++ path
  if apiBase != "" then apiBase ++ normalized else normalized

example : normalizeApiBase (some "https://x.example/ ") = some "https://x.example" := rfl
example : normalizeApiBase (some "   ") = none := rfl
example : resolveApiBase "admin" (some "https://a/") (some "https://p") = "https://a" := rfl
example : resolveApiBase "public" none (some "https://p") = "https://p" := rfl
example : buildApiUrl "" "/api/signup" = "/api/signup" := rfl
example : buildApiUrl "https://a" "api/signup" = "https://a/api/signup" := rfl

/-! ## Percent-encoding (`encodeURIComponent` and `URLSearchParams`) -/

/-- UTF-8 bytes of a character. -/
def utf8Bytes (c : Char) : List Nat :=
  let n := c.toNat
  if n < 0x80 then [n]
  else if n < 0x800 then [0xC0 + n / 0x40, 0x80 + n % 0x40]
  else if n < 0x10000 then [0xE0 + n / 0x1000, 0x80 + (n / 0x40) % 0x40, 0x80 + n % 0x40]
  else [0xF0 + n / 0x40000, 0x80 + (n / 0x1000) % 0x40, 0x80 + (n / 0x40) % 0x40, 0x80 + n % 0x40]

/-- Uppercase hexadecimal digit. -/
def hexDigit (n : Nat) : Char :=
  (['0', '1', '2', '3', '4', '5', '6', '7', '8', '9', 'A', 'B', 'C', 'D', 'E', 'F']).getD n '0'

/-- `%XX` escape sequence of one byte. -/
def percentByte (b : Nat) : List Char :=
  ['%', hexDigit (b / 16), hexDigit (b % 16)]

/-- Percent escapes of one character's UTF-8 bytes. -/
def percentEncodeChar (c : Char) : List Char :=
  (utf8Bytes c).foldr (fun b acc => percentByte b ++ acc) []

/-- Characters `encodeURIComponent` leaves unescaped: alphanumerics and
`- _ . ! ~ * ' ( )` (the apostrophe written by code point). -/
def uriUnreserved (c : Char) : Bool :=
  c.isAlphanum || ['-', '_', '.', '!', '~', '*', '(', ')'].contains c || c = Char.ofNat 39

/-- Model of JavaScript `encodeURIComponent`, applied by the source to every
identifier or slug interpolated into a URL path. -/
def encodeURIComponent (s : String) : String :=
  String.mk (s.data.foldr (fun c acc => (if uriUnreserved c then [c] else percentEncodeChar c) ++ acc) [])

/-- One character under the `application/x-www-form-urlencoded` serializer
used by `URLSearchParams.toString`: alphanumerics and `* - . _` kept, space
becomes `+`, everything else percent-escaped. -/
def formEncodeChar (c : Char) : List Char :=
  if c.isAlphanum || ['*', '-', '.', '_'].contains c then [c]
  else if c = ' ' then ['+']
  else percentEncodeChar c

/-- Form-encoding of a full string. -/
def formEncode (s : String) : String :=
  String.mk (s.data.foldr (fun c acc => formEncodeChar c ++ acc) [])

example : encodeURIComponent "abc def" = "abc%20def" := rfl
example : formEncode "abc def" = "abc+def" := rfl

/-! ## Query-string construction (`URLSearchParams`) -/

/-- A `URLSearchParams` instance built by successive `set` calls on distinct
keys: an ordered key/value list.  `toString` joins form-encoded pairs. -/
def searchParamsToString (pairs : List (String × String)) : String :=
  String.intercalate "&" (pairs.map (fun kv => formEncode kv.1 ++ "=" ++ formEncode kv.2))

/-- The `` `${qs ? `?${qs}` : ""}` `` suffix each listing operation appends. -/
def queryStringSuffix (pairs : List (String × String)) : String :=
  let qs := searchParamsToString pairs
  if qs != "" then "?" ++ qs else ""

/-- The guarded `if (params.k) sp.set("k", params.k)` of the source for a
string-valued parameter: present only when supplied and truthy. -/
def strParam (k : String) (v : Option String) : List (String × String) :=
  match v with
  | some s => if s = "" then [] else [(k, s)]
  | none => []

/-- The guarded `if (params.k) sp.set("k", String(params.k))` of the source
for a numeric parameter: present only when supplied and truthy (non-zero),
serialized by `String(...)`. -/
def numParam (k : String) (v : Option Int) : List (String × String) :=
  match v with
  | some n => if n = 0 then [] else [(k, toString n)]
  | none => []

/-! ## The exported operations

Each operation contributes a request path built as in the source and a
response outcome obtained from `jsonFetch`.  Optional parameters are
`Option`-typed; `none` models an omitted field. -/

/-- Parameters of `listUsers` (`q`, `status`, `sort` strings; `page`,
`pageSize` numbers). -/
structure ListUsersParams where
  q : Option String
  status : Option String
  sort : Option String
  page : Option Int
  pageSize : Option Int

/-- Parameters of `listAudit`. -/
structure ListAuditParams where
  page : Option Int
  pageSize : Option Int

/-- Parameters of `listBlog`. -/
structure ListBlogParams where
  q : Option String
  tag : Option String
  sort : Option String
  page : Option Int
  pageSize : Option Int

/-- Parameters of `adminListBlog` (adds the publish-status filter). -/
structure AdminListBlogParams where
  q : Option String
  tag : Option String
  status : Option String
  sort : Option String
  page : Option Int
  pageSize : Option Int

/-- The `URLSearchParams` contents `listUsers` builds (`api.ts`, lines
147–152), in the order of its `set` calls. -/
def listUsersQueryPairs (p : ListUsersParams) : List (String × String) :=
  strParam "q" p.q ++ strParam "status" p.status ++ strParam "sort" p.sort ++
    numParam "page" p.page ++ numParam "pageSize" p.pageSize

/-- The `URLSearchParams` contents `listAudit` builds (`api.ts`, lines
211–213). -/
def listAuditQueryPairs (p : ListAuditParams) : List (String × String) :=
  numParam "page" p.page ++ numParam "pageSize" p.pageSize

/-- The `URLSearchParams` contents `listBlog` builds (`api.ts`, lines
250–255). -/
def listBlogQueryPairs (p : ListBlogParams) : List (String × String) :=
  strParam "q" p.q ++ strParam "tag" p.tag ++ strParam "sort" p.sort ++
    numParam "page" p.page ++ numParam "pageSize" p.pageSize

/-- The `URLSearchParams` contents `adminListBlog` builds (`api.ts`, lines
272–278). -/
def adminListBlogQueryPairs (p : AdminListBlogParams) : List (String × String) :=
  strParam "q" p.q ++ strParam "tag" p.tag ++ strParam "status" p.status ++
    strParam "sort" p.sort ++ numParam "page" p.page ++ numParam "pageSize" p.pageSize

/-! Request paths, exactly as each operation passes them to `jsonFetch`. -/

def signupPath : String := "/api/signup"

def adminLoginPath : String := "/api/auth/login"

def adminMePath : String := "/api/auth/me"

def adminLogoutPath : String := "/api/auth/logout"

def listUsersPath (p : ListUsersParams) : String :=
  "/api/admin/users" ++ queryStringSuffix (listUsersQueryPairs p)

def updateUserStatusPath (id : String) : String :=
  "/api/admin/users/" ++ encodeURIComponent id

def adminUpdateUserPath (id : String) : String :=
  "/api/admin/users/" ++ encodeURIComponent id

def adminDeleteUserPath (id : String) : String :=
  "/api/admin/users/" ++ encodeURIComponent id

def createResetTokenPath (id : String) : String :=
  "/api/admin/users/" ++ encodeURIComponent id ++ "/reset-token"

def resetPasswordPath : String := "/api/reset-password"

def listAuditPath (p : ListAuditParams) : String :=
  "/api/admin/audit" ++ queryStringSuffix (listAuditQueryPairs p)

def listBlogPath (p : ListBlogParams) : String :=
  "/api/blog" ++ queryStringSuffix (listBlogQueryPairs p)

def getBlogPath (slug : String) : String :=
  "/api/blog/" ++ encodeURIComponent slug

def adminListBlogPath (p : AdminListBlogParams) : String :=
  "/api/admin/blog" ++ queryStringSuffix (adminListBlogQueryPairs p)

def adminCreateBlogPath : String := "/api/admin/blog"

def adminUpdateBlogPath (id : String) : String :=
  "/api/admin/blog/" ++ encodeURIComponent id

def adminDeleteBlogPath (id : String) : String :=
  "/api/admin/blog/" ++ encodeURIComponent id

def listBlogTagsPath : String := "/api/blog/tags"

/-- The URL `jsonFetch` passes to `fetch` for a given path (`api.ts`, line
88): `buildApiUrl` applied to the effective base. -/
def jsonFetchRequestUrl (apiBase : String) (path : String) : String :=
  buildApiUrl apiBase path

/-- The URL `adminUploadImage` passes to `fetch` (`api.ts`, line 321): the
literal `"/api/admin/uploads/image"`, not routed through `buildApiUrl` — the
base argument is ignored. -/
def adminUploadImageRequestUrl (_apiBase : String) : String :=
  "/api/admin/uploads/image"

/-- The {ok: true} literal several operations return in place of the server's
success body. -/
def okTrueBody : Json := .obj [("ok", .bool true)]

/-- `adminLogin` (`api.ts`, lines 124–130): awaits `jsonFetch` and returns
the literal success value, so an error outcome propagates and a success
outcome's body is discarded. -/
def adminLoginResult (res : HttpResponse) : FetchOutcome :=
  match jsonFetch res with
  | .success _ => .success okTrueBody
  | other => other

/-- `adminLogout` (`api.ts`, lines 136–138): returns `jsonFetch`'s value
directly, cast to the declared type without inspection. -/
def adminLogoutResult (res : HttpResponse) : FetchOutcome :=
  jsonFetch res

/-- `adminDeleteUser` (`api.ts`, lines 183–188): like `adminLogin`, discards
the success body and returns the literal. -/
def adminDeleteUserResult (res : HttpResponse) : FetchOutcome :=
  match jsonFetch res with
  | .success _ => .success okTrueBody
  | other => other

/-- `resetPassword` (`api.ts`, lines 199–205): like `adminLogin`. -/
def resetPasswordResult (res : HttpResponse) : FetchOutcome :=
  match jsonFetch res with
  | .success _ => .success okTrueBody
  | other => other

/-- `adminDeleteBlog` (`api.ts`, lines 313–316): like `adminLogin`. -/
def adminDeleteBlogResult (res : HttpResponse) : FetchOutcome :=
  match jsonFetch res with
  | .success _ => .success okTrueBody
  | other => other

/-- The error-message expression of `adminUploadImage` (`api.ts`, lines
329–330): `typeof body === "string" ? body : body?.error ? String(body.error)
: `HTTP ${res.status}``.  No validation-error case, no detail lookup, no
attached data. -/
def uploadErrorMessage (status : Nat) (body : Json) : String :=
  match body with
  | .str s => s
  | _ =>
      match truthyStr (getField body "error") with
      | some e => e
      | none => "HTTP " ++ toString status

/-- The response handling of `adminUploadImage` (`api.ts`, lines 326–333):
the same content-type driven body read as `jsonFetch`, then its own, simpler
error classification. -/
def adminUploadImageResult (res : HttpResponse) : FetchOutcome :=
  let isJson := strIncludes res.contentType "application/json"
  if isJson then
    match res.jsonBody with
    | none => .jsonParseError
    | some body =>
        if statusOk res.status then .success body
        else .thrown (uploadErrorMessage res.status body) none
  else
    if statusOk res.status then .success (.str res.bodyText)
    else .thrown (uploadErrorMessage res.status (.str res.bodyText)) none

example : listUsersPath ⟨none, some "pending", none, some 2, none⟩
    = "/api/admin/users?status=pending&page=2" := rfl
example : listUsersPath ⟨none, some "", none, none, none⟩ = "/api/admin/users" := rfl
example : adminDeleteUserPath "abc def" = "/api/admin/users/abc%20def" := rfl
example : adminUploadImageResult ⟨400, "application/json", "",
      some (.obj [("error", .str "validation_error"),
        ("details", .arr [.obj [("field", .str "mobileNumber"), ("message", .str "Invalid")]])])⟩
    = .thrown "validation_error" none := rfl

/-! ## Specification-side definitions

These follow the spec's words rather than the source, for comparison
against the source-derived definitions above. -/

/-- The spec's URL-construction rule, from its words: prepend the effective
base URL unless it is empty.  (Its other half — "ensure the path has exactly
one leading slash" — is the identity on every path the operations build;
`oneLeadingSlash` states that separately.) -/
def specUrlRule (base path : String) : String :=
  if base = "" then path else base ++ path

/-- Whether a string carries exactly one leading slash. -/
def oneLeadingSlash (s : String) : Bool :=
  match s.data with
  | ['/'] => true
  | '/' :: c :: _ => c != '/'
  | _ => false

/-! ## Shared lemmas -/

/-- `buildApiUrl` on a path that already starts with a slash: the spec's
prepend rule. -/
theorem buildApiUrl_of_slash (base p : String) (h : jsStartsWith p "/" = true) :
    buildApiUrl base p = if base = "" then p else base ++ p := by
  by_cases hb : base = "" <;> simp [buildApiUrl, h, hb]

/-- The request URL of a `jsonFetch`-routed operation follows the spec rule
whenever its path starts with a slash. -/
theorem requestUrl_rule (base p : String) (h : jsStartsWith p "/" = true) :
    jsonFetchRequestUrl base p = specUrlRule base p :=
  buildApiUrl_of_slash base p h

/-- An unset override (absent, or whitespace-only after trimming) normalizes
to `none`. -/
theorem normalizeApiBase_unset (o : Option String)
    (h : o = none ∨ ∃ s, o = some s ∧ jsTrim s = "") : normalizeApiBase o = none := by
  rcases h with h | ⟨s, rfl, hs⟩
  · subst h; rfl
  · simp [normalizeApiBase, hs]

/-! ## C5: request-URL construction across operations -/

/-- C5 counterexample: with a non-empty effective base URL, the image-upload
operation's request URL is the bare literal path, not the base-prefixed URL
the shared rule produces — so not every exported operation constructs its
URL the same way. -/
theorem c5_counterexample_upload_url :
    adminUploadImageRequestUrl "https://api.example.com" = "/api/admin/uploads/image" ∧
    specUrlRule "https://api.example.com" "/api/admin/uploads/image"
      = "https://api.example.com/api/admin/uploads/image" ∧
    adminUploadImageRequestUrl "https://api.example.com"
      ≠ specUrlRule "https://api.example.com" "/api/admin/uploads/image" :=
  ⟨rfl, rfl, by decide⟩

/-- C5 (amended): every JSON operation's request URL follows the spec's rule
— its path carries exactly one leading slash and the effective base URL is
prepended unless empty — but the image-upload operation requests the fixed
path `/api/admin/uploads/image`, ignoring the effective base URL. -/
theorem c5_request_url_construction :
    (∀ base, jsonFetchRequestUrl base signupPath = specUrlRule base signupPath ∧
      oneLeadingSlash signupPath = true) ∧
    (∀ base, jsonFetchRequestUrl base adminLoginPath = specUrlRule base adminLoginPath ∧
      oneLeadingSlash adminLoginPath = true) ∧
    (∀ base, jsonFetchRequestUrl base adminMePath = specUrlRule base adminMePath ∧
      oneLeadingSlash adminMePath = true) ∧
    (∀ base, jsonFetchRequestUrl base adminLogoutPath = specUrlRule base adminLogoutPath ∧
      oneLeadingSlash adminLogoutPath = true) ∧
    (∀ base p, jsonFetchRequestUrl base (listUsersPath p) = specUrlRule base (listUsersPath p) ∧
      oneLeadingSlash (listUsersPath p) = true) ∧
    (∀ base id, jsonFetchRequestUrl base (updateUserStatusPath id)
        = specUrlRule base (updateUserStatusPath id) ∧
      oneLeadingSlash (updateUserStatusPath id) = true) ∧
    (∀ base id, jsonFetchRequestUrl base (adminUpdateUserPath id)
        = specUrlRule base (adminUpdateUserPath id) ∧
      oneLeadingSlash (adminUpdateUserPath id) = true) ∧
    (∀ base id, jsonFetchRequestUrl base (adminDeleteUserPath id)
        = specUrlRule base (adminDeleteUserPath id) ∧
      oneLeadingSlash (adminDeleteUserPath id) = true) ∧
    (∀ base id, jsonFetchRequestUrl base (createResetTokenPath id)
        = specUrlRule base (createResetTokenPath id) ∧
      oneLeadingSlash (createResetTokenPath id) = true) ∧
    (∀ base, jsonFetchRequestUrl base resetPasswordPath = specUrlRule base resetPasswordPath ∧
      oneLeadingSlash resetPasswordPath = true) ∧
    (∀ base p, jsonFetchRequestUrl base (listAuditPath p) = specUrlRule base (listAuditPath p) ∧
      oneLeadingSlash (listAuditPath p) = true) ∧
    (∀ base p, jsonFetchRequestUrl base (listBlogPath p) = specUrlRule base (listBlogPath p) ∧
      oneLeadingSlash (listBlogPath p) = true) ∧
    (∀ base slug, jsonFetchRequestUrl base (getBlogPath slug) = specUrlRule base (getBlogPath slug) ∧
      oneLeadingSlash (getBlogPath slug) = true) ∧
    (∀ base p, jsonFetchRequestUrl base (adminListBlogPath p)
        = specUrlRule base (adminListBlogPath p) ∧
      oneLeadingSlash (adminListBlogPath p) = true) ∧
    (∀ base, jsonFetchRequestUrl base adminCreateBlogPath = specUrlRule base adminCreateBlogPath ∧
      oneLeadingSlash adminCreateBlogPath = true) ∧
    (∀ base id, jsonFetchRequestUrl base (adminUpdateBlogPath id)
        = specUrlRule base (adminUpdateBlogPath id) ∧
      oneLeadingSlash (adminUpdateBlogPath id) = true) ∧
    (∀ base id, jsonFetchRequestUrl base (adminDeleteBlogPath id)
        = specUrlRule base (adminDeleteBlogPath id) ∧
      oneLeadingSlash (adminDeleteBlogPath id) = true) ∧
    (∀ base, jsonFetchRequestUrl base listBlogTagsPath = specUrlRule base listBlogTagsPath ∧
      oneLeadingSlash listBlogTagsPath = true) ∧
    (∀ base, adminUploadImageRequestUrl base = "/api/admin/uploads/image") :=
  ⟨fun base => ⟨requestUrl_rule base _ rfl, rfl⟩,
   fun base => ⟨requestUrl_rule base _ rfl, rfl⟩,
   fun base => ⟨requestUrl_rule base _ rfl, rfl⟩,
   fun base => ⟨requestUrl_rule base _ rfl, rfl⟩,
   fun base _p => ⟨requestUrl_rule base _ rfl, rfl⟩,
   fun base _id => ⟨requestUrl_rule base _ rfl, rfl⟩,
   fun base _id => ⟨requestUrl_rule base _ rfl, rfl⟩,
   fun base _id => ⟨requestUrl_rule base _ rfl, rfl⟩,
   fun base _id => ⟨requestUrl_rule base _ rfl, rfl⟩,
   fun base => ⟨requestUrl_rule base _ rfl, rfl⟩,
   fun base _p => ⟨requestUrl_rule base _ rfl, rfl⟩,
   fun base _p => ⟨requestUrl_rule base _ rfl, rfl⟩,
   fun base _slug => ⟨requestUrl_rule base _ rfl, rfl⟩,
   fun base _p => ⟨requestUrl_rule base _ rfl, rfl⟩,
   fun base => ⟨requestUrl_rule base _ rfl, rfl⟩,
   fun base _id => ⟨requestUrl_rule base _ rfl, rfl⟩,
   fun base _id => ⟨requestUrl_rule base _ rfl, rfl⟩,
   fun base => ⟨requestUrl_rule base _ rfl, rfl⟩,
   fun _ => rfl⟩

/-! ## C6: trailing-slash trim of the base URL -/

/-- C6 counterexample: an input ending in two trailing slashes.  The first
application strips one slash, so the output still ends in a slash, and a
second application strips again — the trim is not idempotent on inputs with
more than one trailing slash. -/
theorem c6_counterexample_double_slash :
    (jsTrim "http://x//").data.getLast? = some '/' ∧
    normalizeApiBase (some "http://x//") = some "http://x/" ∧
    normalizeApiBase (normalizeApiBase (some "http://x//"))
      ≠ normalizeApiBase (some "http://x//") :=
  ⟨rfl, rfl, by decide⟩

/-- C6 (amended): `normalizeApiBase` strips exactly one trailing slash from
the trimmed input (for a trimmed input `u ++ "/"` the result is `u`, whatever
`u` ends in), and re-application yields the same result when the stripped
remainder is non-empty, already trimmed, and does not itself end in a slash
— in particular for inputs ending in exactly one trailing slash.  Inputs
with several trailing slashes lose only one per application. -/
theorem c6_trailing_slash_trim (s u : String) (htrim : jsTrim s = u ++ "/") :
    normalizeApiBase (some s) = some u ∧
    (u ≠ "" → u.data.getLast? ≠ some '/' → jsTrim u = u →
      normalizeApiBase (normalizeApiBase (some s)) = normalizeApiBase (some s)) := by
  have hdata : (jsTrim s).data = u.data ++ ['/'] := by rw [htrim]; exact rfl
  have hne : ¬(jsTrim s = "") := by
    intro h0
    rw [h0] at hdata
    exact absurd hdata.symm (List.append_ne_nil_of_right_ne_nil _ (by simp))
  have hstrip : jsStripTrailingSlash (jsTrim s) = u := by
    unfold jsStripTrailingSlash
    rw [hdata, List.getLast?_concat, if_pos rfl, List.dropLast_concat]
  have h1 : normalizeApiBase (some s) = some u := by
    unfold normalizeApiBase
    simp only [hne, if_false, hstrip]
  refine ⟨h1, fun hu hlast htu => ?_⟩
  rw [h1]
  show (if jsTrim u = "" then none else some (jsStripTrailingSlash (jsTrim u))) = some u
  rw [htu, if_neg hu]
  unfold jsStripTrailingSlash
  rw [if_neg hlast]

/-- C6 witness: a concrete base URL with exactly one trailing slash — one
slash is stripped and re-application is a fixed point. -/
theorem c6_witness :
    normalizeApiBase (some "https://api.example.com/") = some "https://api.example.com" ∧
    normalizeApiBase (normalizeApiBase (some "https://api.example.com/"))
      = normalizeApiBase (some "https://api.example.com/") := by
  have h := c6_trailing_slash_trim "https://api.example.com/" "https://api.example.com" (by decide)
  exact ⟨h.1, h.2 (by decide) (by decide) rfl⟩

/-! ## C7: effective base-URL selection -/

/-- C7: the effective base URL is the normalized admin override when the
resolved mode is "admin" and the normalized public override otherwise, and
an unset selected override (absent, empty, or whitespace-only after
trimming) yields the empty string (same-origin). -/
theorem c7_effective_base_selection (mode : String) (adminRaw publicRaw : Option String) :
    (mode = "admin" →
      resolveApiBase mode adminRaw publicRaw = (normalizeApiBase adminRaw).getD "") ∧
    (mode ≠ "admin" →
      resolveApiBase mode adminRaw publicRaw = (normalizeApiBase publicRaw).getD "") ∧
    (mode = "admin" → (adminRaw = none ∨ ∃ s, adminRaw = some s ∧ jsTrim s = "") →
      resolveApiBase mode adminRaw publicRaw = "") ∧
    (mode ≠ "admin" → (publicRaw = none ∨ ∃ s, publicRaw = some s ∧ jsTrim s = "") →
      resolveApiBase mode adminRaw publicRaw = "") := by
  have hadmin : mode = "admin" →
      resolveApiBase mode adminRaw publicRaw = (normalizeApiBase adminRaw).getD "" := by
    intro h
    subst h
    unfold resolveApiBase
    cases hn : normalizeApiBase adminRaw <;> simp [hn]
  have hpublic : mode ≠ "admin" →
      resolveApiBase mode adminRaw publicRaw = (normalizeApiBase publicRaw).getD "" := by
    intro h
    have hb : (mode == "admin") = false := beq_eq_false_iff_ne.mpr h
    unfold resolveApiBase
    rw [hb]
    cases hn : normalizeApiBase publicRaw <;> simp [hn]
  refine ⟨hadmin, hpublic, fun h hu => ?_, fun h hu => ?_⟩
  · rw [hadmin h, normalizeApiBase_unset _ hu]; rfl
  · rw [hpublic h, normalizeApiBase_unset _ hu]; rfl

/-- C7 witness: in admin mode a set admin override is normalized and used; in
public mode an absent public override falls back to same-origin. -/
theorem c7_witness :
    resolveApiBase "admin" (some " https://admin.example.com/ ") (some "https://pub.example.com")
      = "https://admin.example.com" ∧
    resolveApiBase "public" (some "https://admin.example.com") none = "" := by
  constructor
  · have h := (c7_effective_base_selection "admin" (some " https://admin.example.com/ ")
      (some "https://pub.example.com")).1 rfl
    rw [h]; rfl
  · exact (c7_effective_base_selection "public" (some "https://admin.example.com") none).2.2.2
      (by decide) (Or.inl rfl)

/-! ## C8: query-parameter construction -/

/-- A supplied listing-parameter value: a string filter or a numeric
page/pageSize. -/
inductive ParamValue where
  | str (s : String)
  | num (n : Int)

/-- Truthiness of a supplied value (the spec's inclusion condition). -/
def paramTruthy : ParamValue → Bool
  | .str s => s != ""
  | .num n => n != 0

/-- Serialization of a supplied value; numbers in decimal string form. -/
def paramToString : ParamValue → String
  | .str s => s
  | .num n => toString n

/-- The spec's query-construction rule, from its words: walk the supplied
parameters in insertion order and keep exactly those whose value is truthy,
serialized to strings. -/
def specQueryPairs (entries : List (String × Option ParamValue)) : List (String × String) :=
  entries.foldr
    (fun e acc =>
      match e.2 with
      | some v => if paramTruthy v then (e.1, paramToString v) :: acc else acc
      | none => acc) []

/-- The parameters `listUsers` receives, in the order of its `set` calls. -/
def listUsersEntries (p : ListUsersParams) : List (String × Option ParamValue) :=
  [("q", p.q.map .str), ("status", p.status.map .str), ("sort", p.sort.map .str),
   ("page", p.page.map .num), ("pageSize", p.pageSize.map .num)]

/-- The parameters `listAudit` receives. -/
def listAuditEntries (p : ListAuditParams) : List (String × Option ParamValue) :=
  [("page", p.page.map .num), ("pageSize", p.pageSize.map .num)]

/-- The parameters `listBlog` receives. -/
def listBlogEntries (p : ListBlogParams) : List (String × Option ParamValue) :=
  [("q", p.q.map .str), ("tag", p.tag.map .str), ("sort", p.sort.map .str),
   ("page", p.page.map .num), ("pageSize", p.pageSize.map .num)]

/-- The parameters `adminListBlog` receives. -/
def adminListBlogEntries (p : AdminListBlogParams) : List (String × Option ParamValue) :=
  [("q", p.q.map .str), ("tag", p.tag.map .str), ("status", p.status.map .str),
   ("sort", p.sort.map .str), ("page", p.page.map .num), ("pageSize", p.pageSize.map .num)]

/-- The spec rule on no parameters. -/
theorem specQueryPairs_nil : specQueryPairs [] = [] := rfl

/-- One string-valued step of the spec rule equals the source's guarded
`set`. -/
theorem specQueryPairs_cons_str (k : String) (v : Option String)
    (rest : List (String × Option ParamValue)) :
    specQueryPairs ((k, v.map .str) :: rest) = strParam k v ++ specQueryPairs rest := by
  cases v with
  | none => rfl
  | some s =>
      by_cases hs : s = "" <;>
        simp [specQueryPairs, strParam, paramTruthy, paramToString, hs]

/-- One numeric step of the spec rule equals the source's guarded `set`. -/
theorem specQueryPairs_cons_num (k : String) (v : Option Int)
    (rest : List (String × Option ParamValue)) :
    specQueryPairs ((k, v.map .num) :: rest) = numParam k v ++ specQueryPairs rest := by
  cases v with
  | none => rfl
  | some n =>
      by_cases hn : n = 0 <;>
        simp [specQueryPairs, numParam, paramTruthy, paramToString, hn]

/-- C8: every listing operation's query pairs are exactly the spec rule
applied to its supplied parameters — a parameter appears precisely when its
value is truthy, numbers are rendered in decimal, and pairs keep insertion
order — and on the spec's two concrete examples `listUsers` yields no
`status` parameter for an empty status and the query string
`?status=pending&page=2` for status "pending", page 2. -/
theorem c8_query_construction :
    (∀ p, listUsersQueryPairs p = specQueryPairs (listUsersEntries p)) ∧
    (∀ p, listAuditQueryPairs p = specQueryPairs (listAuditEntries p)) ∧
    (∀ p, listBlogQueryPairs p = specQueryPairs (listBlogEntries p)) ∧
    (∀ p, adminListBlogQueryPairs p = specQueryPairs (adminListBlogEntries p)) ∧
    listUsersQueryPairs ⟨none, some "", none, none, none⟩ = [] ∧
    listUsersPath ⟨none, some "", none, none, none⟩ = "/api/admin/users" ∧
    listUsersPath ⟨none, some "pending", none, some 2, none⟩
      = "/api/admin/users?status=pending&page=2" := by
  refine ⟨fun p => ?_, fun p => ?_, fun p => ?_, fun p => ?_, rfl, rfl, rfl⟩ <;>
    simp only [listUsersQueryPairs, listUsersEntries, listAuditQueryPairs, listAuditEntries,
      listBlogQueryPairs, listBlogEntries, adminListBlogQueryPairs, adminListBlogEntries,
      specQueryPairs_cons_str, specQueryPairs_cons_num, specQueryPairs_nil,
      List.append_assoc, List.append_nil]

/-! ## C1: validation-error message and attached data -/

/-- C1 counterexample input: a validation-shaped body whose first detail
message is present but the empty string. -/
def c1CexBody : Json :=
  .obj [("error", .str "validation_error"),
        ("details", .arr [.obj [("field", .str "mobileNumber"), ("message", .str "")]])]

/-- The 400 response carrying `c1CexBody`. -/
def c1CexRes : HttpResponse := ⟨400, "application/json", "", some c1CexBody⟩

/-- C1 counterexample: the first detail's message is present (the empty
string), yet the thrown message is the fallback "Validation error", not that
message — the fallback fires on falsy messages, not only absent ones. -/
theorem c1_counterexample_empty_message :
    detailFirstMessage c1CexBody = some (.str "") ∧
    jsonFetch c1CexRes = .thrown "Validation error" (some c1CexBody) ∧
    "Validation error" ≠ "" :=
  ⟨rfl, rfl, by decide⟩

/-- C1 (amended): for every non-success JSON response whose parsed body has
error `"validation_error"` and an array `details`, the thrown error carries
the parsed body as its attached data, and its message is the first detail's
message when that message is a non-empty string and "Validation error" when
it is absent or the empty string. -/
theorem c1_validation_error_shape (res : HttpResponse) (body : Json) (ds : List Json)
    (hct : strIncludes res.contentType "application/json" = true)
    (hok : statusOk res.status = false)
    (hb : res.jsonBody = some body)
    (herr : getField body "error" = some (.str "validation_error"))
    (hdet : getField body "details" = some (.arr ds)) :
    ∃ msg, jsonFetch res = .thrown msg (some body) ∧
      (∀ m, detailFirstMessage body = some (.str m) →
        msg = if m = "" then "Validation error" else m) ∧
      (detailFirstMessage body = none → msg = "Validation error") := by
  have hvb : isValidationBody body = true := by
    simp [isValidationBody, herr, hdet]
  refine ⟨(truthyStr (detailFirstMessage body)).getD "Validation error", ?_, ?_, ?_⟩
  · simp [jsonFetch, hct, hb, hok, classifyError, hvb]
  · intro m hm
    rw [hm]
    by_cases hm0 : m = "" <;> simp [truthyStr, jsTruthy, jsToString, hm0]
  · intro h0
    rw [h0]
    rfl

/-- C1 witness body: the spec's own example, message "Invalid". -/
def c1WitnessBody : Json :=
  .obj [("error", .str "validation_error"),
        ("details", .arr [.obj [("field", .str "mobileNumber"), ("message", .str "Invalid")]])]

/-- The 400 response carrying `c1WitnessBody`. -/
def c1WitnessRes : HttpResponse := ⟨400, "application/json", "", some c1WitnessBody⟩

/-- C1 witness: on the spec's example the thrown message is "Invalid" and the
attached data is the parsed body. -/
theorem c1_witness : jsonFetch c1WitnessRes = .thrown "Invalid" (some c1WitnessBody) := by
  obtain ⟨msg, hout, hmsg, _⟩ := c1_validation_error_shape c1WitnessRes c1WitnessBody
    [.obj [("field", .str "mobileNumber"), ("message", .str "Invalid")]] rfl rfl rfl rfl rfl
  have hm : msg = "Invalid" := by simpa using hmsg "Invalid" rfl
  rw [hout, hm]

/-! ## C2: generic error-message precedence -/

/-- The generic-error message precedence as the (amended) spec states it:
a body that is a string — plain text, or a JSON-parsed string — verbatim;
else a truthy first detail message, `String`-converted; else a truthy
top-level error value, `String`-converted; else "HTTP " plus the status
code.  (The amendment replaces the original's "has a message" / "error
string" conditions with truthiness: empty strings fall through.) -/
def specGenericMessage (status : Nat) (body : Json) : String :=
  match body with
  | .str s => s
  | _ =>
      if optTruthy (detailFirstMessage body) then
        ((detailFirstMessage body).map jsToString).getD ""
      else if optTruthy (getField body "error") then
        ((getField body "error").map jsToString).getD ""
      else "HTTP " ++ toString status

/-- The source's generic message agrees with the spec-side precedence. -/
theorem genericMessage_eq_spec (status : Nat) (body : Json) :
    genericMessage status body = specGenericMessage status body := by
  cases body <;> try rfl
  case obj fields =>
    simp only [genericMessage, specGenericMessage]
    cases hD : detailFirstMessage (Json.obj fields) with
    | some j =>
        cases hj : jsTruthy j <;> simp [truthyStr, optTruthy, hD, hj]
        cases hE : getField (Json.obj fields) "error" <;> simp [truthyStr, optTruthy, hE]
        case some j2 => cases hj2 : jsTruthy j2 <;> simp [hj2]
    | none =>
        simp only [truthyStr, optTruthy, hD, Bool.false_eq_true, if_false]
        cases hE : getField (Json.obj fields) "error" with
        | some j2 => cases hj2 : jsTruthy j2 <;> simp [truthyStr, optTruthy, hE, hj2]
        | none => simp [truthyStr, optTruthy, hE]

/-- C2 counterexample input: a JSON body whose top-level error field is the
empty string. -/
def c2CexBody : Json := .obj [("error", .str "")]

/-- The 409 response carrying `c2CexBody`. -/
def c2CexRes : HttpResponse := ⟨409, "application/json", "", some c2CexBody⟩

/-- C2 counterexample: the body has a top-level error string (the empty
string), so the claimed precedence yields that string, but the code treats
the falsy value as absent and throws the synthetic "HTTP 409" instead. -/
theorem c2_counterexample_falsy_error :
    getField c2CexBody "error" = some (.str "") ∧
    jsonFetch c2CexRes = .thrown "HTTP 409" none ∧
    "HTTP 409" ≠ "" :=
  ⟨rfl, rfl, by decide⟩

/-- C2 (amended): for every non-success response not classified as a
validation error, the thrown message follows the precedence of
`specGenericMessage`: a string body (plain text or a JSON string) verbatim;
else a truthy first detail message; else a truthy top-level error value;
else "HTTP " plus the status code. -/
theorem c2_generic_error_message (res : HttpResponse)
    (hok : statusOk res.status = false) :
    (strIncludes res.contentType "application/json" = false →
      jsonFetch res = .thrown (specGenericMessage res.status (.str res.bodyText)) none) ∧
    (∀ body, strIncludes res.contentType "application/json" = true →
      res.jsonBody = some body → isValidationBody body = false →
      jsonFetch res = .thrown (specGenericMessage res.status body) none) := by
  constructor
  · intro hct
    have h : jsonFetch res = .thrown (genericMessage res.status (.str res.bodyText)) none := by
      simp [jsonFetch, hct, hok, classifyError, isValidationBody, getField]
    rw [h, genericMessage_eq_spec]
  · intro body hct hb hvb
    have h : jsonFetch res = .thrown (genericMessage res.status body) none := by
      simp [jsonFetch, hct, hb, hok, classifyError, hvb]
    rw [h, genericMessage_eq_spec]

/-- C2 witness responses: the spec's two examples. -/
def c2TextRes : HttpResponse := ⟨404, "text/plain", "Not found", none⟩

/-- A 409 with a JSON body whose only field is a truthy error string. -/
def c2ConflictRes : HttpResponse :=
  ⟨409, "application/json", "", some (.obj [("error", .str "Conflict")])⟩

/-- C2 witness: plain text "Not found" at 404 throws "Not found"; JSON
error "Conflict" at 409 with no details throws "Conflict". -/
theorem c2_witness :
    jsonFetch c2TextRes = .thrown "Not found" none ∧
    jsonFetch c2ConflictRes = .thrown "Conflict" none := by
  constructor
  · exact (c2_generic_error_message c2TextRes rfl).1 rfl
  · exact (c2_generic_error_message c2ConflictRes rfl).2 (.obj [("error", .str "Conflict")])
      rfl rfl rfl

/-! ## C3: status 500 with an empty or unparseable body -/

/-- C3 counterexample input: status 500, no content-type header, empty body. -/
def c3CexRes : HttpResponse := ⟨500, "", "", none⟩

/-- C3 counterexample: at status 500 with an empty plain-text body the thrown
message is the body verbatim — the empty string — which does not contain
"500". -/
theorem c3_counterexample_empty_text_body :
    jsonFetch c3CexRes = .thrown "" none ∧
    strIncludes "" "500" = false :=
  ⟨rfl, rfl⟩

/-- C3 (amended): at status 500 the thrown message is the synthetic
"HTTP 500" (which contains "500") when the content type declares JSON and the
parsed body is a non-string JSON value with no truthy first detail message
and no truthy error field; an empty plain-text body instead yields the empty
message, and an unparseable JSON body propagates the parse failure. -/
theorem c3_http500_message (res : HttpResponse) (body : Json)
    (hst : res.status = 500)
    (hct : strIncludes res.contentType "application/json" = true)
    (hb : res.jsonBody = some body)
    (hns : ∀ s, body ≠ .str s)
    (hdm : truthyStr (detailFirstMessage body) = none)
    (herr : truthyStr (getField body "error") = none) :
    jsonFetch res = .thrown "HTTP 500" none ∧ strIncludes "HTTP 500" "500" = true := by
  have hok : statusOk res.status = false := by rw [hst]; rfl
  have hvb : isValidationBody body = false := by
    unfold isValidationBody
    cases hge : getField body "error" with
    | none => simp
    | some j =>
        rw [hge] at herr
        cases j <;> simp_all [truthyStr, jsTruthy]
  have hgm : genericMessage res.status body = "HTTP 500" := by
    cases body with
    | str s => exact absurd rfl (hns s)
    | num n => simp [genericMessage, hdm, herr, hst]; rfl
    | bool b => simp [genericMessage, hdm, herr, hst]; rfl
    | null => simp [genericMessage, hdm, herr, hst]; rfl
    | arr l => simp [genericMessage, hdm, herr, hst]; rfl
    | obj fields =>
        simp only [genericMessage]
        rw [hdm, herr, hst]
        rfl
  refine ⟨?_, rfl⟩
  have h : jsonFetch res = .thrown (genericMessage res.status body) none := by
    simp [jsonFetch, hct, hb, hok, classifyError, hvb]
  rw [h, hgm]

/-- C3 witness: a 500 whose JSON body is the empty object yields "HTTP 500". -/
theorem c3_witness :
    jsonFetch ⟨500, "application/json", "", some (.obj [])⟩ = .thrown "HTTP 500" none ∧
    strIncludes "HTTP 500" "500" = true :=
  c3_http500_message ⟨500, "application/json", "", some (.obj [])⟩ (.obj [])
    rfl rfl rfl (fun _s h => Json.noConfusion h) rfl rfl

/-! ## C4: image upload versus `jsonFetch` classification -/

/-- C4 counterexample input: a validation-error response. -/
def c4CexBody : Json :=
  .obj [("error", .str "validation_error"),
        ("details", .arr [.obj [("field", .str "mobileNumber"), ("message", .str "Invalid")]])]

/-- The 400 response carrying `c4CexBody`. -/
def c4CexRes : HttpResponse := ⟨400, "application/json", "", some c4CexBody⟩

/-- C4 counterexample: on a validation-error response `jsonFetch` throws the
first detail message with the body attached, while `adminUploadImage` throws
the raw error marker with no data — the upload path does not apply the same
classification. -/
theorem c4_counterexample_validation_divergence :
    jsonFetch c4CexRes = .thrown "Invalid" (some c4CexBody) ∧
    adminUploadImageResult c4CexRes = .thrown "validation_error" none ∧
    "Invalid" ≠ "validation_error" :=
  ⟨rfl, rfl, by decide⟩

/-- The source's generic message coincides with the upload path's message
whenever the first detail message is not truthy. -/
theorem genericMessage_eq_upload (status : Nat) (body : Json)
    (hdm : truthyStr (detailFirstMessage body) = none) :
    genericMessage status body = uploadErrorMessage status body := by
  cases body <;> try rfl
  case obj fields =>
    simp only [genericMessage, uploadErrorMessage]
    rw [hdm]

/-- C4 (amended): `adminUploadImage` applies `jsonFetch`'s success
classification unchanged, and its thrown error matches `jsonFetch`'s on
every non-success body that is plain text (or any string) and on every JSON
body that is neither validation-shaped nor carries a truthy first detail
message; it omits the validation special case and the detail-message lookup
(and never attaches data). -/
theorem c4_upload_classification (res : HttpResponse) :
    (statusOk res.status = true → adminUploadImageResult res = jsonFetch res) ∧
    (statusOk res.status = false → strIncludes res.contentType "application/json" = false →
      adminUploadImageResult res = jsonFetch res ∧
      adminUploadImageResult res = .thrown res.bodyText none) ∧
    (∀ body, statusOk res.status = false →
      strIncludes res.contentType "application/json" = true → res.jsonBody = some body →
      isValidationBody body = false → truthyStr (detailFirstMessage body) = none →
      adminUploadImageResult res = jsonFetch res) := by
  refine ⟨?_, ?_, ?_⟩
  · intro hok
    cases hct : strIncludes res.contentType "application/json" with
    | true => cases hb : res.jsonBody <;>
        simp [jsonFetch, adminUploadImageResult, hct, hb, hok]
    | false => simp [jsonFetch, adminUploadImageResult, hct, hok]
  · intro hok hct
    constructor
    · simp [jsonFetch, adminUploadImageResult, hct, hok, classifyError,
        isValidationBody, getField, genericMessage, uploadErrorMessage]
    · simp [adminUploadImageResult, hct, hok, uploadErrorMessage]
  · intro body hok hct hb hvb hdm
    have h1 : adminUploadImageResult res = .thrown (uploadErrorMessage res.status body) none := by
      simp [adminUploadImageResult, hct, hb, hok]
    have h2 : jsonFetch res = .thrown (genericMessage res.status body) none := by
      simp [jsonFetch, hct, hb, hok, classifyError, hvb]
    rw [h1, h2, genericMessage_eq_upload res.status body hdm]

/-- C4 witness response: a 409 with a simple error body. -/
def c4WitnessRes : HttpResponse :=
  ⟨409, "application/json", "", some (.obj [("error", .str "Conflict")])⟩

/-- C4 witness: on a simple JSON error body the upload path and `jsonFetch`
throw the same error. -/
theorem c4_witness :
    adminUploadImageResult c4WitnessRes = jsonFetch c4WitnessRes ∧
    jsonFetch c4WitnessRes = .thrown "Conflict" none :=
  ⟨(c4_upload_classification c4WitnessRes).2.2 (.obj [("error", .str "Conflict")])
      rfl rfl rfl rfl rfl,
   rfl⟩

/-! ## C9: literal {ok: true} results -/

/-- C9: on every successful response, `adminLogin`, `adminDeleteUser`,
`resetPassword` and `adminDeleteBlog` return the literal value with `ok`
set to true, whatever body the server sent back, while `adminLogout`
returns the server's body after an unchecked cast. -/
theorem c9_ok_literal_results (res : HttpResponse) (body : Json)
    (h : jsonFetch res = .success body) :
    adminLoginResult res = .success okTrueBody ∧
    adminDeleteUserResult res = .success okTrueBody ∧
    resetPasswordResult res = .success okTrueBody ∧
    adminDeleteBlogResult res = .success okTrueBody ∧
    adminLogoutResult res = .success body := by
  simp [adminLoginResult, adminDeleteUserResult, resetPasswordResult,
    adminDeleteBlogResult, adminLogoutResult, h]

/-- C9 witness response: a 200 whose body is not the ok literal. -/
def c9WitnessRes : HttpResponse :=
  ⟨200, "application/json", "", some (.obj [("session", .str "abc")])⟩

/-- C9 witness: the server body is discarded by the four literal-returning
operations and passed through by `adminLogout`. -/
theorem c9_witness :
    adminLoginResult c9WitnessRes = .success okTrueBody ∧
    adminDeleteUserResult c9WitnessRes = .success okTrueBody ∧
    resetPasswordResult c9WitnessRes = .success okTrueBody ∧
    adminDeleteBlogResult c9WitnessRes = .success okTrueBody ∧
    adminLogoutResult c9WitnessRes = .success (.obj [("session", .str "abc")]) :=
  c9_ok_literal_results c9WitnessRes (.obj [("session", .str "abc")]) rfl

/-! ## C10: gating of the validation classification -/

/-- C10: the validation classification requires a JSON content type and a
validation-shaped parsed body; otherwise a non-success response throws a
generic error with no attached data, and with a non-JSON content type the
message is the raw body text verbatim — even when that text spells a
validation-shaped JSON document. -/
theorem c10_generic_gating (res : HttpResponse)
    (hok : statusOk res.status = false) :
    (strIncludes res.contentType "application/json" = false →
      jsonFetch res = .thrown res.bodyText none) ∧
    (∀ body, strIncludes res.contentType "application/json" = true →
      res.jsonBody = some body → isValidationBody body = false →
      ∃ msg, jsonFetch res = .thrown msg none) := by
  constructor
  · intro hct
    simp [jsonFetch, hct, hok, classifyError, isValidationBody, getField, genericMessage]
  · intro body hct hb hvb
    exact ⟨genericMessage res.status body, by simp [jsonFetch, hct, hb, hok, classifyError, hvb]⟩

/-- C10 witness: a 403 with a plain-text body throws the text with no data. -/
theorem c10_witness :
    jsonFetch ⟨403, "text/html", "Forbidden", none⟩ = .thrown "Forbidden" none :=
  (c10_generic_gating ⟨403, "text/html", "Forbidden", none⟩ rfl).1 rfl

end SignupApi
